import Mathlib

/-!
Verification of the logspout-cloudwatch adapter (`src/cloudwatch.go`).

The development shallowly embeds the three pipeline stages of the adapter:

* the Resolver (`CloudwatchAdapter.Stream` of the cached revision, together
  with `renderEnvValue` and `parseEnv`),
* the Accumulator (`CloudwatchBatcher.Start`, `CloudwatchBatch.Append`,
  `msgSize`), and
* the Dispatcher (`CloudwatchUploader.Start`, `getSequenceToken`,
  `groupExists`, `createGroup`, `createStream`).

Go maps are embedded as association lists (`lookupA` / `setA`), the remote
CloudWatch Logs service as a scripted oracle (`SvcState`) whose per-operation
responses are consumed in call order, and Go's `text/template` engine as an
abstract `TemplateEngine` parameter (the adapter only ever inspects whether
parsing and execution succeed, and the produced text).
-/

/-- Association-list lookup; embeds a Go `map[string]T` read (`v, ok := m[k]`). -/
def lookupA {α : Type} : List (String × α) → String → Option α
  | [], _ => none
  | (k', v) :: rest, k => if k' = k then some v else lookupA rest k

/-- Association-list update; embeds a Go `map[string]T` write (`m[k] = v`),
replacing an existing binding and otherwise appending. -/
def setA {α : Type} : List (String × α) → String → α → List (String × α)
  | [], k, v => [(k, v)]
  | (k', v') :: rest, k, v =>
    if k' = k then (k, v) :: rest else (k', v') :: setA rest k v

/-- The render context handed to naming templates (struct `RenderContext`). -/
structure RenderContext where
  Host : String
  Env : List (String × String)
  Labels : List (String × String)
  Name : String
  ID : String
  LoggerHost : String

/-- Split an environment line at its first `=`: the key before it and the
value after it, or `none` when the line has no `=`.  This is what `parseEnv`
computes with `strings.Split` on `=` followed by `strings.Join` of all fields
after the first with `=` (the join reassembles exactly the text after the
first `=`). -/
def splitEnvLine : List Char → Option (List Char × List Char)
  | [] => none
  | c :: rest =>
    if c = '=' then some ([], rest)
    else
      match splitEnvLine rest with
      | none => none
      | some (k, v) => some (c :: k, v)

/-- `parseEnv`: each `KEY=VALUE` line of a container environment becomes a map
entry; lines without `=` are skipped. -/
def parseEnv (envLines : List String) : List (String × String) :=
  envLines.foldl
    (fun env line =>
      match splitEnvLine line.data with
      | none => env
      | some (k, v) => setA env ⟨k⟩ ⟨v⟩)
    []

/-- Abstract interface of Go's `text/template` engine as used by
`renderEnvValue`: whether `template.Parse` succeeds on a text, and the result
of `template.Execute` against a render context (`none` embeds an execution
error). -/
structure TemplateEngine where
  parseOk : String → Bool
  run : String → RenderContext → Option String

/-- The precedence cascade of `renderEnvValue` (its first half): start with the
default, then let the process environment (if non-empty), the route options
(if present) and finally the container environment (if present) override it. -/
def selectedExpr (osEnv : String → String) (routeOptions : List (String × String))
    (envKey : String) (context : RenderContext) (defaultVal : String) : String :=
  let v1 := if osEnv envKey ≠ "" then osEnv envKey else defaultVal
  let v2 := match lookupA routeOptions envKey with
    | some routeOptionsVal => routeOptionsVal
    | none => v1
  match lookupA context.Env envKey with
  | some containerEnvVal => containerEnvVal
  | none => v2

/-- `CloudwatchAdapter.renderEnvValue`: select the naming expression by
precedence, then parse and execute it as a template.  On a parse or execution
error the default value is returned.  On success the source returns `finalVal`
unchanged — the assignment `finalVal = renderedValue.String()` sits after a
`return` statement and is unreachable — so the raw expression text, not the
rendered output, is returned. -/
def renderEnvValue (eng : TemplateEngine) (osEnv : String → String)
    (routeOptions : List (String × String)) (envKey : String)
    (context : RenderContext) (defaultVal : String) : String :=
  let finalVal := selectedExpr osEnv routeOptions envKey context defaultVal
  if eng.parseOk finalVal then
    match eng.run finalVal context with
    | none => defaultVal
    | some _ => finalVal
  else defaultVal

/-- `strings.TrimPrefix(name, "/")`: drop one leading slash if present. -/
def trimSlash (s : String) : String :=
  match s.data with
  | [] => s
  | c :: rest => if c = '/' then ⟨rest⟩ else s

/-- A tagged record handed from the Resolver to the Accumulator
(struct `CloudwatchMessage`).  `Time` is a Unix-nanosecond timestamp. -/
structure CloudwatchMessage where
  Message : String
  Group : String
  Stream : String
  Time : Nat
  Container : String
deriving DecidableEq

/-- An incoming router message as consumed by `Stream` (the fields of
`router.Message` the adapter reads). -/
structure InMessage where
  name : String
  id : String
  configEnv : List String
  configHostname : String
  data : String
deriving DecidableEq

/-- The fixed collaborators of the Resolver: the template engine, the process
environment, the route options, the logging host name (`osHost`) and the
container-inspection provider (`none` embeds an `InspectContainer` error,
`some labels` a successful inspection returning the container labels). -/
structure AdapterCfg where
  eng : TemplateEngine
  osEnv : String → String
  routeOptions : List (String × String)
  osHost : String
  inspect : String → Option (List (String × String))

/-- The render context built by `Stream` for an inspected container. -/
def mkContext (cfg : AdapterCfg) (m : InMessage)
    (labels : List (String × String)) : RenderContext :=
  { Env := parseEnv m.configEnv
    Labels := labels
    Name := trimSlash m.name
    ID := m.id
    Host := m.configHostname
    LoggerHost := cfg.osHost }

/-- The group name `Stream` computes for a message it resolves
(`renderEnvValue("LOG_GROUP", &context, a.osHost)`). -/
def resolveGroup (cfg : AdapterCfg) (m : InMessage) : String :=
  renderEnvValue cfg.eng cfg.osEnv cfg.routeOptions "LOG_GROUP"
    (mkContext cfg m ((cfg.inspect m.id).getD [])) cfg.osHost

/-- The stream name `Stream` computes for a message it resolves
(`renderEnvValue("LOG_STREAM", &context, context.Name)`). -/
def resolveStream (cfg : AdapterCfg) (m : InMessage) : String :=
  renderEnvValue cfg.eng cfg.osEnv cfg.routeOptions "LOG_STREAM"
    (mkContext cfg m ((cfg.inspect m.id).getD [])) (trimSlash m.name)

/-- The Resolver's destination caches (`groupnames` / `streamnames`). -/
structure AdapterState where
  groupnames : List (String × String)
  streamnames : List (String × String)
deriving DecidableEq

/-- Observable side effects of one `Stream` iteration: a container-inspection
call, a destination-cache write (the source writes `groupnames` and
`streamnames` together; one event embeds the paired write), or a dropped
record after an inspection error.  Each event carries the container name. -/
inductive RsEvent where
  | lookup (name : String)
  | cacheWrite (name : String)
  | dropped (name : String)
deriving DecidableEq

/-- One iteration of the cached `Stream` loop: read both destination caches,
re-resolve (inspecting the container) whenever either cached name is missing
or empty, cache the freshly resolved names, and emit the tagged record.
The wall-clock `Time` of the emitted record is external input; it is fixed
to `0` here since no claim concerns it. -/
def streamStep (cfg : AdapterCfg) (st : AdapterState) (m : InMessage) :
    AdapterState × List RsEvent × Option CloudwatchMessage :=
  let groupName := (lookupA st.groupnames m.name).getD ""
  let streamName := (lookupA st.streamnames m.name).getD ""
  if streamName = "" ∨ groupName = "" then
    match cfg.inspect m.id with
    | none => (st, [RsEvent.lookup m.name, RsEvent.dropped m.name], none)
    | some labels =>
      let context := mkContext cfg m labels
      let g := renderEnvValue cfg.eng cfg.osEnv cfg.routeOptions "LOG_GROUP"
        context cfg.osHost
      let s := renderEnvValue cfg.eng cfg.osEnv cfg.routeOptions "LOG_STREAM"
        context context.Name
      ({ groupnames := setA st.groupnames m.name g
         streamnames := setA st.streamnames m.name s },
       [RsEvent.lookup m.name, RsEvent.cacheWrite m.name],
       some ⟨m.data, g, s, 0, trimSlash m.name⟩)
  else
    (st, [], some ⟨m.data, groupName, streamName, 0, trimSlash m.name⟩)

/-- Run the `Stream` loop over a message sequence from a given cache state,
collecting the emitted events and tagged records. -/
def runStreamFrom (cfg : AdapterCfg) (st : AdapterState) :
    List InMessage → AdapterState × List RsEvent × List CloudwatchMessage
  | [] => (st, [], [])
  | m :: rest =>
    let (st', evs, out) := streamStep cfg st m
    let (stF, evsR, outR) := runStreamFrom cfg st' rest
    (stF, evs ++ evsR, (out.toList) ++ outR)

/-- Run the `Stream` loop from the initial (empty) caches. -/
def runStream (cfg : AdapterCfg) (msgs : List InMessage) :
    AdapterState × List RsEvent × List CloudwatchMessage :=
  runStreamFrom cfg ⟨[], []⟩ msgs

/-- Number of container inspections performed for a given container name. -/
def countLookups (evs : List RsEvent) (n : String) : Nat :=
  (evs.filter (fun e => e = RsEvent.lookup n)).length

/-- Number of destination-cache writes performed for a given container name. -/
def countCacheWrites (evs : List RsEvent) (n : String) : Nat :=
  (evs.filter (fun e => e = RsEvent.cacheWrite n)).length

/-- `CloudwatchBatch`: the records of a batch and its cumulative wire size. -/
structure CloudwatchBatch where
  Msgs : List CloudwatchMessage
  Size : Nat
deriving DecidableEq

/-- `MAX_BATCH_SIZE` (bytes), as in the source. -/
def MAX_BATCH_SIZE : Nat := 3000

/-- `MSG_OVERHEAD` (bytes), the fixed per-record overhead. -/
def MSG_OVERHEAD : Nat := 26

/-- `msgSize`: the computed wire size of one record,
`len(msg.Message) * 8 + MSG_OVERHEAD`. -/
def msgSize (msg : CloudwatchMessage) : Nat :=
  msg.Message.length * 8 + MSG_OVERHEAD

/-- `NewCloudwatchBatch`: a fresh empty batch. -/
def NewCloudwatchBatch : CloudwatchBatch := ⟨[], 0⟩

/-- `CloudwatchBatch.Append`: append a record and add its wire size. -/
def batchAppend (b : CloudwatchBatch) (msg : CloudwatchMessage) : CloudwatchBatch :=
  ⟨b.Msgs ++ [msg], b.Size + msgSize msg⟩

/-- The two inbound event sources of the Accumulator loop: a record on the
input channel, or a tick of the flush timer. -/
inductive BatchEvent where
  | msg (m : CloudwatchMessage)
  | tick
deriving DecidableEq

/-- One iteration of `CloudwatchBatcher.Start`: on a record, create the
container's batch if absent, flush it first if the record would overflow it
(the flushed batch may be the just-created empty one), then append; on a
timer tick, flush and delete every open batch.  Returns the new accumulator
map and the batches handed to the Dispatcher, in emission order. -/
def batcherStep (st : List (String × CloudwatchBatch)) (ev : BatchEvent) :
    List (String × CloudwatchBatch) × List CloudwatchBatch :=
  match ev with
  | BatchEvent.msg m =>
    let st0 := match lookupA st m.Container with
      | some _ => st
      | none => setA st m.Container NewCloudwatchBatch
    let cur := (lookupA st0 m.Container).getD NewCloudwatchBatch
    if MAX_BATCH_SIZE < cur.Size + msgSize m then
      (setA st0 m.Container (batchAppend NewCloudwatchBatch m), [cur])
    else
      (setA st0 m.Container (batchAppend cur m), [])
  | BatchEvent.tick => ([], st.map (fun kv => kv.2))

/-- Run the Accumulator loop over an event sequence from a given state,
collecting all batches handed to the Dispatcher in order. -/
def runBatcherFrom (st : List (String × CloudwatchBatch)) :
    List BatchEvent → List (String × CloudwatchBatch) × List CloudwatchBatch
  | [] => (st, [])
  | ev :: rest =>
    let (st', outs) := batcherStep st ev
    let (stF, outsR) := runBatcherFrom st' rest
    (stF, outs ++ outsR)

/-- Run the Accumulator loop from the initial (empty) map. -/
def runBatcher (events : List BatchEvent) :
    List (String × CloudwatchBatch) × List CloudwatchBatch :=
  runBatcherFrom [] events

deriving instance DecidableEq for Except

/-- The remote CloudWatch Logs service, embedded as an oracle.  The set of
existing log groups is explicit, so `DescribeLogGroups` answers with the
groups matching the requested name as a name-prefix (the AWS semantics the
source relies on).  The responses of the other remote calls are scripted
per operation and consumed in call order; an exhausted script answers with
an error. -/
structure SvcState where
  remoteGroups : List String
  createGroupResps : List (Except String Unit)
  streamResps : List (Except String (List (Option String)))
  createStreamResps : List (Except String Unit)
  putResps : List (Except String (Option String))
deriving DecidableEq

/-- Character-list prefix test backing the group-name prefix match. -/
def listStarts : List Char → List Char → Bool
  | [], _ => true
  | _ :: _, [] => false
  | a :: as, b :: bs => a = b && listStarts as bs

/-- `pre` is a prefix of `s` (Go `strings.HasPrefix` / the AWS
`LogGroupNamePrefix` filter). -/
def strStartsWith (pre s : String) : Bool :=
  listStarts pre.data s.data

/-- The error answer of an exhausted response script. -/
def noResp : String := "service: no scripted response"

/-- `DescribeLogGroups` with `LogGroupNamePrefix := pre`: every existing
group whose name starts with `pre`. -/
def describeGroups (rg : List String) (pre : String) : List String :=
  rg.filter (fun g => strStartsWith pre g)

/-- `CloudwatchUploader.groupExists`: describe the groups matching the name
as a prefix; more than one match is an error, zero matches mean the group is
absent, one match means it exists. -/
def groupExistsL (rg : List String) (group : String) : Except String Bool :=
  let resp := describeGroups rg group
  if 1 < resp.length then
    Except.error ((toString resp.length) ++ " groups match group " ++ group ++ "!")
  else if resp.length < 1 then
    Except.ok false
  else
    Except.ok true

/-- Lines 354–363 of `getSequenceToken`: check the group, creating it when
absent (`createGroup` consumes one scripted response and, on success, adds
the group to the remote set).  Returns the outcome together with the updated
remote groups and the remaining creation script. -/
def ensureGroupL (rg : List String) (cg : List (Except String Unit))
    (group : String) :
    Except String Unit × List String × List (Except String Unit) :=
  match groupExistsL rg group with
  | Except.error e => (Except.error e, rg, cg)
  | Except.ok true => (Except.ok (), rg, cg)
  | Except.ok false =>
    match cg with
    | [] => (Except.error noResp, rg, [])
    | Except.error e :: rest => (Except.error e, rg, rest)
    | Except.ok _ :: rest => (Except.ok (), group :: rg, rest)

/-- Result bundle of `getSequenceToken`: the returned token (or error) and
the service components it consumed or changed. -/
structure GstOut where
  res : Except String (Option String)
  rg : List String
  cg : List (Except String Unit)
  sr : List (Except String (List (Option String)))
  cs : List (Except String Unit)
deriving DecidableEq

/-- Consume one scripted `CreateLogStream` response (an exhausted script is
an error). -/
def popCreate (cs : List (Except String Unit)) :
    Except String Unit × List (Except String Unit) :=
  match cs with
  | [] => (Except.error noResp, [])
  | Except.error e :: crest => (Except.error e, crest)
  | Except.ok _ :: crest => (Except.ok (), crest)

/-- `CloudwatchUploader.getSequenceToken`: ensure the group exists, describe
the streams matching the stream name as a prefix (one scripted response per
call); more than one match is an error, exactly one match yields its upload
sequence token, and zero matches trigger `createStream` (one scripted
response) followed by a recursive retry of the whole lookup.  The source
recursion is unbounded; here it stops when the describe script is exhausted
(which answers an error).  The top-level split is on the scripted describe
responses (the recursion argument); the group check is still performed first
in every case and its failure leaves the describe script unconsumed, exactly
as the source returns before calling `DescribeLogStreams`. -/
def gstGo (msg : CloudwatchMessage) :
    List String → List (Except String Unit) →
    List (Except String (List (Option String))) → List (Except String Unit) →
    GstOut
  | rg, cg, [], cs =>
    match ensureGroupL rg cg msg.Group with
    | (Except.error e, rg1, cg1) => ⟨Except.error e, rg1, cg1, [], cs⟩
    | (Except.ok _, rg1, cg1) => ⟨Except.error noResp, rg1, cg1, [], cs⟩
  | rg, cg, Except.error e0 :: srest, cs =>
    match ensureGroupL rg cg msg.Group with
    | (Except.error e, rg1, cg1) =>
      ⟨Except.error e, rg1, cg1, Except.error e0 :: srest, cs⟩
    | (Except.ok _, rg1, cg1) => ⟨Except.error e0, rg1, cg1, srest, cs⟩
  | rg, cg, Except.ok streams :: srest, cs =>
    match ensureGroupL rg cg msg.Group with
    | (Except.error e, rg1, cg1) =>
      ⟨Except.error e, rg1, cg1, Except.ok streams :: srest, cs⟩
    | (Except.ok _, rg1, cg1) =>
      if 1 < streams.length then
        ⟨Except.error ((toString streams.length) ++ " streams match group "
            ++ msg.Group ++ ", stream " ++ msg.Stream ++ "!"),
          rg1, cg1, srest, cs⟩
      else
        match streams with
        | [] =>
          match popCreate cs with
          | (Except.error e, crest) => ⟨Except.error e, rg1, cg1, srest, crest⟩
          | (Except.ok _, crest) => gstGo msg rg1 cg1 srest crest
        | tok :: _ => ⟨Except.ok tok, rg1, cg1, srest, cs⟩

/-- `getSequenceToken` packaged over the service oracle. -/
def getSequenceToken (msg : CloudwatchMessage) (svc : SvcState) :
    Except String (Option String) × SvcState :=
  let o := gstGo msg svc.remoteGroups svc.createGroupResps
    svc.streamResps svc.createStreamResps
  (o.res,
   { svc with
       remoteGroups := o.rg
       createGroupResps := o.cg
       streamResps := o.sr
       createStreamResps := o.cs })

/-- The parameters of a `PutLogEvents` call as built by the Uploader: the
first record's group and stream, the carried sequence token, and the events
generated from the batch (message text and millisecond timestamp of each
record, in batch order). -/
structure PutParams where
  group : String
  stream : String
  token : Option String
  messages : List String
  timestamps : List Nat
deriving DecidableEq

/-- Build the `PutLogEvents` input for a batch (lines 315–329 of the source);
`msg` is the batch's first record. -/
def mkPutParams (batch : CloudwatchBatch) (msg : CloudwatchMessage)
    (token : Option String) : PutParams :=
  { group := msg.Group
    stream := msg.Stream
    token := token
    messages := batch.Msgs.map (fun m => m.Message)
    timestamps := batch.Msgs.map (fun m => m.Time / 1000000) }

/-- A write to the Uploader's sequence-token cache, tagged with its site:
after the pre-submission token fetch, or after a successful submission. -/
inductive WriteSite where
  | afterFetch
  | afterSuccess
deriving DecidableEq

/-- One logged token-cache write. -/
structure CacheWrite where
  key : String
  val : String
  site : WriteSite
deriving DecidableEq

/-- Outcome of dispatching one batch: the `batch.Msgs[0]` access paniced on an
empty batch, the token fetch failed (batch dropped), the submission failed
(batch dropped), or the submission succeeded with the service's next token. -/
inductive DispatchResult where
  | panicked
  | fetchFailed (e : String)
  | putFailed (p : PutParams) (e : String)
  | succeeded (p : PutParams) (next : Option String)
deriving DecidableEq

/-- The Uploader's state: the per-container sequence-token cache and the
remote service. -/
structure UploaderState where
  tokens : List (String × String)
  svc : SvcState
deriving DecidableEq

/-- The submission half of the Uploader loop (lines 331–343): call
`PutLogEvents` (one scripted response); on an error drop the batch, on
success cache the returned next token (when one is returned) for the
stream's key. -/
def submitPhase (st : UploaderState) (k : String) (p : PutParams)
    (ws : List CacheWrite) : UploaderState × DispatchResult × List CacheWrite :=
  match st.svc.putResps with
  | [] => ({ st with svc := { st.svc with putResps := [] } },
      DispatchResult.putFailed p noResp, ws)
  | Except.error e :: rest =>
    ({ st with svc := { st.svc with putResps := rest } },
     DispatchResult.putFailed p e, ws)
  | Except.ok none :: rest =>
    ({ st with svc := { st.svc with putResps := rest } },
     DispatchResult.succeeded p none, ws)
  | Except.ok (some n) :: rest =>
    ({ tokens := setA st.tokens k n, svc := { st.svc with putResps := rest } },
     DispatchResult.succeeded p (some n), ws ++ [⟨k, n, WriteSite.afterSuccess⟩])

/-- One iteration of `CloudwatchUploader.Start`: read the batch's first record
(`batch.Msgs[0]` — a panic on an empty batch); use the cached token for its
container when present, otherwise fetch one with `getSequenceToken`, caching
a successfully fetched non-nil token before submission; then submit. -/
def dispatchBatch (st : UploaderState) (batch : CloudwatchBatch) :
    UploaderState × DispatchResult × List CacheWrite :=
  match batch.Msgs with
  | [] => (st, DispatchResult.panicked, [])
  | msg :: _ =>
    let k := msg.Container
    match lookupA st.tokens k with
    | some cachedToken =>
      submitPhase st k (mkPutParams batch msg (some cachedToken)) []
    | none =>
      match getSequenceToken msg st.svc with
      | (Except.error e, svc') =>
        ({ st with svc := svc' }, DispatchResult.fetchFailed e, [])
      | (Except.ok none, svc') =>
        submitPhase { st with svc := svc' } k (mkPutParams batch msg none) []
      | (Except.ok (some t), svc') =>
        submitPhase { tokens := setA st.tokens k t, svc := svc' } k
          (mkPutParams batch msg (some t)) [⟨k, t, WriteSite.afterFetch⟩]

/-- The key (container name of the first record) under which the Uploader
caches the sequence token of a batch's stream. -/
def batchKey (batch : CloudwatchBatch) : Option String :=
  (batch.Msgs.head?).map (fun m => m.Container)

/-- The token carried by the submission a dispatch outcome performed, when it
reached the submission step. -/
def sentToken : DispatchResult → Option (Option String)
  | DispatchResult.putFailed p _ => some p.token
  | DispatchResult.succeeded p _ => some p.token
  | _ => none

/-- A template engine for action-free template texts: parsing succeeds and
execution returns the text unchanged — the behavior of Go's `text/template`
on texts containing no action. -/
def idEngine : TemplateEngine :=
  { parseOk := fun _ => true
    run := fun t _ => some t }

/-- A template engine modelling Go's `text/template` on the inputs of the C1
theorem: the single-action template `\x7b\x7b.Name\x7d\x7d` parses and
renders to the context's `Name` field, and action-free texts render to
themselves. -/
def c1Engine : TemplateEngine :=
  { parseOk := fun _ => true
    run := fun t context =>
      if t = "\x7b\x7b.Name\x7d\x7d" then some context.Name else some t }

/-- The render context of the C1 theorem: a container named `web` whose
environment selects the template `\x7b\x7b.Name\x7d\x7d` for the stream
slot. -/
def c1Ctx : RenderContext :=
  { Host := "host"
    Env := [("LOG_STREAM", "\x7b\x7b.Name\x7d\x7d")]
    Labels := []
    Name := "web"
    ID := "abc"
    LoggerHost := "logger" }

/-- Claim C1: the claim says `renderEnvValue` returns the result of evaluating
the chosen expression when it parses and evaluates without error.  The code
does not: the assignment of the rendered value is unreachable (it follows a
`return` statement), so the raw expression text is returned instead.  Here
the chosen expression `\x7b\x7b.Name\x7d\x7d` parses and evaluates without
error to `web`, yet `renderEnvValue` returns the raw template text. -/
theorem c1_renderEnvValue_returns_raw_template :
    renderEnvValue c1Engine (fun _ => "") [] "LOG_STREAM" c1Ctx "web"
        = "\x7b\x7b.Name\x7d\x7d"
      ∧ c1Engine.parseOk "\x7b\x7b.Name\x7d\x7d" = true
      ∧ c1Engine.run "\x7b\x7b.Name\x7d\x7d" c1Ctx = some "web"
      ∧ "\x7b\x7b.Name\x7d\x7d" ≠ "web" := by
  refine ⟨by decide, rfl, by decide, by decide⟩

/-- Claim C7: the naming expression is selected with strict precedence
container environment > route option > process environment (non-empty) >
default, and the resolution path passes the logger host name as the group
slot's default and the context's display name as the stream slot's
default. -/
theorem c7_naming_precedence (osEnv : String → String)
    (ro : List (String × String)) (context : RenderContext) (key dflt : String)
    (cfg : AdapterCfg) (m : InMessage) :
    (∀ v, lookupA context.Env key = some v →
      selectedExpr osEnv ro key context dflt = v)
  ∧ (lookupA context.Env key = none → ∀ v, lookupA ro key = some v →
      selectedExpr osEnv ro key context dflt = v)
  ∧ (lookupA context.Env key = none → lookupA ro key = none →
      osEnv key ≠ "" → selectedExpr osEnv ro key context dflt = osEnv key)
  ∧ (lookupA context.Env key = none → lookupA ro key = none →
      osEnv key = "" → selectedExpr osEnv ro key context dflt = dflt)
  ∧ resolveGroup cfg m
      = renderEnvValue cfg.eng cfg.osEnv cfg.routeOptions "LOG_GROUP"
          (mkContext cfg m ((cfg.inspect m.id).getD []))
          (mkContext cfg m ((cfg.inspect m.id).getD [])).LoggerHost
  ∧ resolveStream cfg m
      = renderEnvValue cfg.eng cfg.osEnv cfg.routeOptions "LOG_STREAM"
          (mkContext cfg m ((cfg.inspect m.id).getD []))
          (mkContext cfg m ((cfg.inspect m.id).getD [])).Name := by
  refine ⟨?_, ?_, ?_, ?_, rfl, rfl⟩
  · intro v h
    simp [selectedExpr, h]
  · intro h1 v h2
    simp [selectedExpr, h1, h2]
  · intro h1 h2 h3
    simp [selectedExpr, h1, h2, h3]
  · intro h1 h2 h3
    simp [selectedExpr, h1, h2, h3]

/-- Witness for C7 at concrete inputs: with no container override and a route
option present, the route option is selected. -/
theorem c7_naming_precedence_witness :
    selectedExpr (fun _ => "busyEnv") [("LOG_GROUP", "optval")] "LOG_GROUP"
      ⟨"h", [], [], "n", "i", "lh"⟩ "dflt" = "optval" :=
  (c7_naming_precedence (fun _ => "busyEnv") [("LOG_GROUP", "optval")]
      ⟨"h", [], [], "n", "i", "lh"⟩ "LOG_GROUP" "dflt"
      ⟨idEngine, fun _ => "", [], "h", fun _ => some []⟩
      ⟨"n", "i", [], "hh", "d"⟩).2.1 rfl "optval" (by decide)

/-- The Resolver configuration of the C2 counterexample: no process
environment, no route options, logger host `h`, inspection always
succeeding with no labels. -/
def c2Cfg : AdapterCfg :=
  { eng := idEngine
    osEnv := fun _ => ""
    routeOptions := []
    osHost := "h"
    inspect := fun _ => some [] }

/-- The message of the C2 counterexample: container `c` whose environment
sets `LOG_GROUP` to the empty string. -/
def c2Msg : InMessage :=
  { name := "c"
    id := "i"
    configEnv := ["LOG_GROUP="]
    configHostname := "ch"
    data := "d" }

/-- Claim C2 (counterexample): two records from the same container trigger two
container inspections and two destination-cache writes, because the resolved
group name is the empty string and an empty cached name is treated as a cache
miss by the `Stream` loop.  This refutes "at most one metadata lookup per
distinct source identity" and "exactly one destination-cache write per newly
seen source". -/
theorem c2_cache_counts_counterexample :
    countLookups (runStream c2Cfg [c2Msg, c2Msg]).2.1 "c" = 2
  ∧ countCacheWrites (runStream c2Cfg [c2Msg, c2Msg]).2.1 "c" = 2
  ∧ ¬ countLookups (runStream c2Cfg [c2Msg, c2Msg]).2.1 "c" ≤ 1 := by
  refine ⟨by decide, by decide, by decide⟩

theorem lookupA_setA_self {α : Type} (l : List (String × α)) (k : String) (v : α) :
    lookupA (setA l k v) k = some v := by
  induction l with
  | nil => simp [setA, lookupA]
  | cons hd tl ih =>
    obtain ⟨k', v'⟩ := hd
    by_cases h : k' = k
    · simp [setA, lookupA, h]
    · simp [setA, lookupA, h, ih]

theorem lookupA_setA_ne {α : Type} (l : List (String × α)) (k k' : String) (v : α)
    (h : k' ≠ k) : lookupA (setA l k v) k' = lookupA l k' := by
  have h' : ¬ k = k' := fun hh => h hh.symm
  induction l with
  | nil => simp [setA, lookupA, h']
  | cons hd tl ih =>
    obtain ⟨k0, v0⟩ := hd
    by_cases h0 : k0 = k
    · subst h0
      simp [setA, lookupA, h']
    · simp [setA, lookupA, h0, ih]

/-- A container name holds a usable cached destination for the `Stream` loop:
both cached names are present and non-empty (the loop re-resolves exactly when
this fails). -/
def cachedOK (st : AdapterState) (n : String) : Prop :=
  ¬ ((lookupA st.streamnames n).getD "" = "" ∨ (lookupA st.groupnames n).getD "" = "")

instance (st : AdapterState) (n : String) : Decidable (cachedOK st n) := by
  unfold cachedOK
  infer_instance

theorem countLookups_cons (e : RsEvent) (evs : List RsEvent) (n : String) :
    countLookups (e :: evs) n
      = countLookups evs n + (if e = RsEvent.lookup n then 1 else 0) := by
  by_cases h : e = RsEvent.lookup n
  · simp [countLookups, List.filter_cons, h]
  · simp [countLookups, List.filter_cons, h]

theorem countCacheWrites_cons (e : RsEvent) (evs : List RsEvent) (n : String) :
    countCacheWrites (e :: evs) n
      = countCacheWrites evs n + (if e = RsEvent.cacheWrite n then 1 else 0) := by
  by_cases h : e = RsEvent.cacheWrite n
  · simp [countCacheWrites, List.filter_cons, h]
  · simp [countCacheWrites, List.filter_cons, h]

theorem c2_counts (cfg : AdapterCfg) :
    ∀ (msgs : List InMessage) (st : AdapterState),
    (∀ m ∈ msgs,
      (cfg.inspect m.id).isSome ∧ resolveGroup cfg m ≠ "" ∧ resolveStream cfg m ≠ "") →
    ∀ n,
      countLookups (runStreamFrom cfg st msgs).2.1 n
        = (if ¬ cachedOK st n ∧ n ∈ msgs.map InMessage.name then 1 else 0)
    ∧ countCacheWrites (runStreamFrom cfg st msgs).2.1 n
        = (if ¬ cachedOK st n ∧ n ∈ msgs.map InMessage.name then 1 else 0) := by
  intro msgs
  induction msgs with
  | nil =>
    intro st _ n
    simp [runStreamFrom, countLookups, countCacheWrites]
  | cons m rest ih =>
    intro st H n
    have Hm := H m (List.mem_cons_self m rest)
    have Hrest : ∀ m' ∈ rest,
        (cfg.inspect m'.id).isSome ∧ resolveGroup cfg m' ≠ "" ∧ resolveStream cfg m' ≠ "" :=
      fun m' hm' => H m' (List.mem_cons_of_mem m hm')
    by_cases hc : cachedOK st m.name
    · -- cache hit: no events, state unchanged
      have hstep : streamStep cfg st m
          = (st, [], some ⟨m.data, (lookupA st.groupnames m.name).getD "",
              (lookupA st.streamnames m.name).getD "", 0, trimSlash m.name⟩) := by
        unfold streamStep
        rw [if_neg hc]
      have hev : (runStreamFrom cfg st (m :: rest)).2.1
          = (runStreamFrom cfg st rest).2.1 := by
        simp [runStreamFrom, hstep]
      obtain ⟨ihl, ihw⟩ := ih st Hrest n
      have hcnd : (¬ cachedOK st n ∧ n ∈ rest.map InMessage.name)
          ↔ (¬ cachedOK st n ∧ n ∈ (m :: rest).map InMessage.name) := by
        by_cases hn : n = m.name
        · subst hn
          constructor
          · rintro ⟨hna, _⟩
            exact absurd hc hna
          · rintro ⟨hna, _⟩
            exact absurd hc hna
        · simp only [List.map_cons, List.mem_cons]
          constructor
          · rintro ⟨hna, hmm⟩
            exact ⟨hna, Or.inr hmm⟩
          · rintro ⟨hna, hmm⟩
            rcases hmm with h1 | h2
            · exact absurd h1 hn
            · exact ⟨hna, h2⟩
      constructor
      · rw [hev, ihl]
        exact if_congr hcnd rfl rfl
      · rw [hev, ihw]
        exact if_congr hcnd rfl rfl
    · -- cache miss or empty cached name: inspect, resolve, write both caches
      obtain ⟨hins, hg, hs⟩ := Hm
      obtain ⟨labels, hlab⟩ := Option.isSome_iff_exists.mp hins
      have hctx : (cfg.inspect m.id).getD [] = labels := by simp [hlab]
      have hcond : (lookupA st.streamnames m.name).getD "" = ""
          ∨ (lookupA st.groupnames m.name).getD "" = "" := not_not.mp hc
      have hstep : streamStep cfg st m
          = ({ groupnames := setA st.groupnames m.name (resolveGroup cfg m)
               streamnames := setA st.streamnames m.name (resolveStream cfg m) },
             [RsEvent.lookup m.name, RsEvent.cacheWrite m.name],
             some ⟨m.data, resolveGroup cfg m, resolveStream cfg m, 0,
               trimSlash m.name⟩) := by
        unfold streamStep
        rw [if_pos hcond, hlab]
        simp [resolveGroup, resolveStream, hctx, mkContext]
      set st' : AdapterState :=
        { groupnames := setA st.groupnames m.name (resolveGroup cfg m)
          streamnames := setA st.streamnames m.name (resolveStream cfg m) } with hst'
      have hev : (runStreamFrom cfg st (m :: rest)).2.1
          = RsEvent.lookup m.name :: RsEvent.cacheWrite m.name
              :: (runStreamFrom cfg st' rest).2.1 := by
        simp [runStreamFrom, hstep]
      have hcached' : cachedOK st' m.name := by
        simp [cachedOK, hst', lookupA_setA_self, hg, hs]
      obtain ⟨ihl, ihw⟩ := ih st' Hrest n
      by_cases hn : n = m.name
      · subst hn
        have hz : countLookups (runStreamFrom cfg st' rest).2.1 m.name = 0 := by
          rw [ihl, if_neg]
          rintro ⟨hna, _⟩
          exact hna hcached'
        have hzw : countCacheWrites (runStreamFrom cfg st' rest).2.1 m.name = 0 := by
          rw [ihw, if_neg]
          rintro ⟨hna, _⟩
          exact hna hcached'
        constructor
        · rw [hev, countLookups_cons, countLookups_cons, hz]
          simp [hc, List.map_cons, List.mem_cons]
        · rw [hev, countCacheWrites_cons, countCacheWrites_cons, hzw]
          simp [hc, List.map_cons, List.mem_cons]
      · have hpres : cachedOK st' n ↔ cachedOK st n := by
          simp [cachedOK, hst', lookupA_setA_ne _ _ _ _ hn]
        have hcnd2 : (¬ cachedOK st' n ∧ n ∈ rest.map InMessage.name)
            ↔ (¬ cachedOK st n ∧ n ∈ (m :: rest).map InMessage.name) := by
          simp only [List.map_cons, List.mem_cons, hpres]
          constructor
          · rintro ⟨hna, hmm⟩
            exact ⟨hna, Or.inr hmm⟩
          · rintro ⟨hna, hmm⟩
            rcases hmm with h1 | h2
            · exact absurd h1 hn
            · exact ⟨hna, h2⟩
        have e1 : (if RsEvent.cacheWrite m.name = RsEvent.lookup n then 1 else 0) = 0 := by
          simp
        have e2 : (if RsEvent.lookup m.name = RsEvent.lookup n then 1 else 0) = 0 := by
          simp only [RsEvent.lookup.injEq]
          exact if_neg (fun hh => hn hh.symm)
        have e3 : (if RsEvent.lookup m.name = RsEvent.cacheWrite n then 1 else 0) = 0 := by
          simp
        have e4 : (if RsEvent.cacheWrite m.name = RsEvent.cacheWrite n then 1 else 0) = 0 := by
          simp only [RsEvent.cacheWrite.injEq]
          exact if_neg (fun hh => hn hh.symm)
        constructor
        · rw [hev, countLookups_cons, countLookups_cons, e1, e2, ihl]
          simp only [Nat.add_zero]
          exact if_congr hcnd2 rfl rfl
        · rw [hev, countCacheWrites_cons, countCacheWrites_cons, e3, e4, ihw]
          simp only [Nat.add_zero]
          exact if_congr hcnd2 rfl rfl

/-- Claim C2 (amended): provided every container inspection succeeds and every
resolved group and stream name is non-empty, the Resolver performs exactly one
container inspection and exactly one destination-cache write per distinct
container name appearing in the record sequence — in particular at most one
inspection per source, zero for a source whose destination is already cached,
and zero cache writes for already-cached sources. -/
theorem c2_amended_cache_counts (cfg : AdapterCfg) (msgs : List InMessage)
    (H : ∀ m ∈ msgs,
      (cfg.inspect m.id).isSome ∧ resolveGroup cfg m ≠ "" ∧ resolveStream cfg m ≠ "")
    (n : String) :
    countLookups (runStream cfg msgs).2.1 n
      = (if n ∈ msgs.map InMessage.name then 1 else 0)
  ∧ countCacheWrites (runStream cfg msgs).2.1 n
      = (if n ∈ msgs.map InMessage.name then 1 else 0) := by
  obtain ⟨hl, hw⟩ := c2_counts cfg msgs ⟨[], []⟩ H n
  have hnc : ¬ cachedOK ⟨[], []⟩ n := by
    simp [cachedOK, lookupA]
  rw [runStream]
  constructor
  · rw [hl]
    exact if_congr (by simp [hnc]) rfl rfl
  · rw [hw]
    exact if_congr (by simp [hnc]) rfl rfl

/-- Resolver configuration of the C2 witness: inspection always succeeds and
both built-in defaults are non-empty. -/
def c2wCfg : AdapterCfg :=
  { eng := idEngine
    osEnv := fun _ => ""
    routeOptions := []
    osHost := "h"
    inspect := fun _ => some [] }

/-- Message of the C2 witness: container `a` with no naming overrides. -/
def c2wMsg : InMessage :=
  { name := "a"
    id := "i"
    configEnv := []
    configHostname := "hh"
    data := "d" }

/-- Witness for the amended C2 at a concrete input: one record from one fresh
container performs exactly one inspection and one cache write. -/
theorem c2_amended_cache_counts_witness :
    countLookups (runStream c2wCfg [c2wMsg]).2.1 "a" = 1
  ∧ countCacheWrites (runStream c2wCfg [c2wMsg]).2.1 "a" = 1 := by
  have h := c2_amended_cache_counts c2wCfg [c2wMsg] (by decide) "a"
  simpa [c2wMsg] using h

theorem mem_setA {α : Type} (l : List (String × α)) (k : String) (v : α)
    (x : String × α) (hx : x ∈ setA l k v) : x = (k, v) ∨ x ∈ l := by
  induction l with
  | nil => simpa [setA] using hx
  | cons hd tl ih =>
    obtain ⟨k0, v0⟩ := hd
    by_cases h0 : k0 = k
    · rw [setA, if_pos h0] at hx
      rcases List.mem_cons.mp hx with h | h
      · exact Or.inl h
      · exact Or.inr (List.mem_cons_of_mem _ h)
    · rw [setA, if_neg h0] at hx
      rcases List.mem_cons.mp hx with h | h
      · exact Or.inr (h ▸ List.mem_cons_self _ _)
      · rcases ih h with h1 | h1
        · exact Or.inl h1
        · exact Or.inr (List.mem_cons_of_mem _ h1)

theorem lookupA_mem {α : Type} (l : List (String × α)) (k : String) (v : α)
    (h : lookupA l k = some v) : (k, v) ∈ l := by
  induction l with
  | nil => simp [lookupA] at h
  | cons hd tl ih =>
    obtain ⟨k0, v0⟩ := hd
    by_cases h0 : k0 = k
    · subst h0
      rw [lookupA, if_pos rfl] at h
      obtain rfl : v0 = v := by injection h
      exact List.mem_cons_self _ _
    · rw [lookupA, if_neg h0] at h
      exact List.mem_cons_of_mem _ (ih h)

/-- The batch invariant of claim C3: the cumulative size is the sum of the
records' computed wire sizes, and it stays within `MAX_BATCH_SIZE` except for
a batch holding exactly one record whose own wire size exceeds it. -/
def batchInv (b : CloudwatchBatch) : Prop :=
  b.Size = (b.Msgs.map msgSize).sum
  ∧ (b.Size ≤ MAX_BATCH_SIZE ∨ ∃ m, b.Msgs = [m] ∧ MAX_BATCH_SIZE < msgSize m)

theorem batchInv_new : batchInv NewCloudwatchBatch := by
  constructor
  · simp [NewCloudwatchBatch]
  · left
    simp [NewCloudwatchBatch, MAX_BATCH_SIZE]

theorem batcherStep_inv (st : List (String × CloudwatchBatch)) (ev : BatchEvent)
    (Hst : ∀ kv ∈ st, batchInv kv.2) :
    (∀ kv ∈ (batcherStep st ev).1, batchInv kv.2)
    ∧ (∀ b ∈ (batcherStep st ev).2, batchInv b) := by
  match ev with
  | BatchEvent.tick =>
    refine ⟨by simp [batcherStep], ?_⟩
    intro b hb
    simp only [batcherStep, List.mem_map] at hb
    obtain ⟨kv, hkv, rfl⟩ := hb
    exact Hst kv hkv
  | BatchEvent.msg m =>
    have Hst0 : ∀ kv ∈ (match lookupA st m.Container with
        | some _ => st
        | none => setA st m.Container NewCloudwatchBatch), batchInv kv.2 := by
      match h : lookupA st m.Container with
      | some _ => exact Hst
      | none =>
        intro kv hkv
        rcases mem_setA _ _ _ _ hkv with h1 | h1
        · rw [h1]
          exact batchInv_new
        · exact Hst kv h1
    set st0 := (match lookupA st m.Container with
      | some _ => st
      | none => setA st m.Container NewCloudwatchBatch) with hst0
    have Hcur : batchInv ((lookupA st0 m.Container).getD NewCloudwatchBatch) := by
      match h : lookupA st0 m.Container with
      | some b => exact Hst0 (m.Container, b) (lookupA_mem _ _ _ h)
      | none => exact batchInv_new
    set cur := (lookupA st0 m.Container).getD NewCloudwatchBatch with hcur
    have Happend1 : batchInv (batchAppend NewCloudwatchBatch m) := by
      constructor
      · simp [batchAppend, NewCloudwatchBatch]
      · by_cases hsz : msgSize m ≤ MAX_BATCH_SIZE
        · left
          simpa [batchAppend, NewCloudwatchBatch] using hsz
        · right
          exact ⟨m, by simp [batchAppend, NewCloudwatchBatch], by omega⟩
    by_cases hov : MAX_BATCH_SIZE < cur.Size + msgSize m
    · have hstep : batcherStep st (BatchEvent.msg m)
          = (setA st0 m.Container (batchAppend NewCloudwatchBatch m), [cur]) := by
        rw [batcherStep]
        rw [← hst0, ← hcur, if_pos hov]
      rw [hstep]
      constructor
      · intro kv hkv
        rcases mem_setA _ _ _ _ hkv with h1 | h1
        · rw [h1]
          exact Happend1
        · exact Hst0 kv h1
      · intro b hb
        rw [List.mem_singleton.mp hb]
        exact Hcur
    · have hstep : batcherStep st (BatchEvent.msg m)
          = (setA st0 m.Container (batchAppend cur m), []) := by
        rw [batcherStep]
        rw [← hst0, ← hcur, if_neg hov]
      rw [hstep]
      constructor
      · intro kv hkv
        rcases mem_setA _ _ _ _ hkv with h1 | h1
        · rw [h1]
          constructor
          · simp [batchAppend, Hcur.1]
          · left
            simp only [batchAppend]
            omega
        · exact Hst0 kv h1
      · intro b hb
        simp at hb

theorem runBatcherFrom_inv (events : List BatchEvent) :
    ∀ st, (∀ kv ∈ st, batchInv kv.2) →
    (∀ kv ∈ (runBatcherFrom st events).1, batchInv kv.2)
    ∧ (∀ b ∈ (runBatcherFrom st events).2, batchInv b) := by
  induction events with
  | nil =>
    intro st Hst
    exact ⟨Hst, by simp [runBatcherFrom]⟩
  | cons ev rest ih =>
    intro st Hst
    obtain ⟨H1, H2⟩ := batcherStep_inv st ev Hst
    obtain ⟨H3, H4⟩ := ih (batcherStep st ev).1 H1
    have hrun : runBatcherFrom st (ev :: rest)
        = ((runBatcherFrom (batcherStep st ev).1 rest).1,
           (batcherStep st ev).2 ++ (runBatcherFrom (batcherStep st ev).1 rest).2) := by
      simp [runBatcherFrom]
    rw [hrun]
    refine ⟨H3, ?_⟩
    intro b hb
    rcases List.mem_append.mp hb with h | h
    · exact H2 b h
    · exact H4 b h

/-- Claim C3: every batch the Accumulator hands to the Dispatcher, over any
sequence of records and timer ticks, has `Size` equal to the sum of its
records' computed wire sizes, and `Size` exceeds `MAX_BATCH_SIZE` only when
the batch consists of exactly one record whose own wire size exceeds it. -/
theorem c3_batch_size_invariant (events : List BatchEvent) (b : CloudwatchBatch)
    (hb : b ∈ (runBatcher events).2) :
    b.Size = (b.Msgs.map msgSize).sum
    ∧ (b.Size ≤ MAX_BATCH_SIZE
       ∨ ∃ m, b.Msgs = [m] ∧ MAX_BATCH_SIZE < msgSize m) :=
  (runBatcherFrom_inv events [] (by simp)).2 b hb

/-- Record of the C3 witness. -/
def c3Msg : CloudwatchMessage :=
  { Message := "x", Group := "g", Stream := "s", Time := 0, Container := "c" }

/-- Witness for C3 at a concrete input: the batch flushed by a timer tick
after one small record satisfies the invariant. -/
theorem c3_batch_size_invariant_witness :
    (⟨[c3Msg], 34⟩ : CloudwatchBatch).Size = (([c3Msg].map msgSize)).sum
    ∧ ((⟨[c3Msg], 34⟩ : CloudwatchBatch).Size ≤ MAX_BATCH_SIZE
       ∨ ∃ m, ([c3Msg] : List CloudwatchMessage) = [m] ∧ MAX_BATCH_SIZE < msgSize m) :=
  c3_batch_size_invariant [BatchEvent.msg c3Msg, BatchEvent.tick]
    ⟨[c3Msg], 34⟩ (by decide)

set_option maxRecDepth 16384

/-- A payload of 372 bytes: its wire size is `372 * 8 + 26 = 3002`, above
`MAX_BATCH_SIZE = 3000`. -/
def c9Payload : String := String.mk (List.replicate 372 'a')

/-- The oversized first record of the C9 theorem. -/
def c9Msg : CloudwatchMessage :=
  { Message := c9Payload, Group := "g", Stream := "s", Time := 0, Container := "c" }

/-- An Uploader state with an empty token cache and a fully exhausted remote
script, used to evaluate the dispatch of the empty batch. -/
def c9UpSt : UploaderState :=
  { tokens := []
    svc := { remoteGroups := [], createGroupResps := [], streamResps := [],
             createStreamResps := [], putResps := [] } }

/-- Claim C9: the Accumulator does hand an empty batch to the Dispatcher.
When a stream's first record is oversized, the just-created empty batch
fails the overflow check and is flushed before the record is appended; the
Dispatcher's `batch.Msgs[0]` access then fails (a Go panic).  This refutes
"an empty batch is never flushed". -/
theorem c9_empty_batch_flushed :
    (runBatcher [BatchEvent.msg c9Msg]).2 = [⟨[], 0⟩]
    ∧ MAX_BATCH_SIZE < msgSize c9Msg
    ∧ (dispatchBatch c9UpSt ⟨[], 0⟩).2.1 = DispatchResult.panicked := by
  refine ⟨by decide, by decide, rfl⟩

/-- A payload of 100 bytes: wire size `826`. -/
def c8Msg : CloudwatchMessage :=
  { Message := String.mk (List.replicate 100 'a'), Group := "g", Stream := "s",
    Time := 0, Container := "c" }

/-- Claim C8 (counterexample): four records of wire size 826 cross
`MAX_BATCH_SIZE = 3000` at the fourth record.  With no timer tick the
accumulator emits exactly ONE batch (the three records before the crossing),
not two: the batch starting with the crossing record stays open in the
accumulator map and is never handed to the Dispatcher. -/
theorem c8_two_batches_counterexample :
    (runBatcher [BatchEvent.msg c8Msg, BatchEvent.msg c8Msg,
        BatchEvent.msg c8Msg, BatchEvent.msg c8Msg]).2
      = [⟨[c8Msg, c8Msg, c8Msg], 2478⟩]
    ∧ ¬ ((runBatcher [BatchEvent.msg c8Msg, BatchEvent.msg c8Msg,
        BatchEvent.msg c8Msg, BatchEvent.msg c8Msg]).2).length = 2
    ∧ lookupA (runBatcher [BatchEvent.msg c8Msg, BatchEvent.msg c8Msg,
        BatchEvent.msg c8Msg, BatchEvent.msg c8Msg]).1 "c"
      = some ⟨[c8Msg], 826⟩ := by
  refine ⟨by decide, by decide, by decide⟩

theorem batcherStep_msg_single (c : String) (B : CloudwatchBatch)
    (m : CloudwatchMessage) (hm : m.Container = c) :
    batcherStep [(c, B)] (BatchEvent.msg m)
      = if MAX_BATCH_SIZE < B.Size + msgSize m
        then ([(c, batchAppend NewCloudwatchBatch m)], [B])
        else ([(c, batchAppend B m)], []) := by
  subst hm
  by_cases h : MAX_BATCH_SIZE < B.Size + msgSize m
  · simp [batcherStep, lookupA, setA, h]
  · simp [batcherStep, lookupA, setA, h]

theorem runBatcher_fill (c : String) :
    ∀ (msgs : List CloudwatchMessage) (B : CloudwatchBatch),
    (∀ m ∈ msgs, m.Container = c) →
    B.Size + ((msgs.map msgSize)).sum ≤ MAX_BATCH_SIZE →
    runBatcherFrom [(c, B)] (msgs.map BatchEvent.msg)
      = ([(c, ⟨B.Msgs ++ msgs, B.Size + ((msgs.map msgSize)).sum⟩)], []) := by
  intro msgs
  induction msgs with
  | nil =>
    intro B _ _
    cases B
    simp [runBatcherFrom]
  | cons m rest ih =>
    intro B hall hsz
    have hm : m.Container = c := hall m (List.mem_cons_self _ _)
    have hnov : ¬ MAX_BATCH_SIZE < B.Size + msgSize m := by
      simp only [List.map_cons, List.sum_cons] at hsz
      omega
    have hstep := batcherStep_msg_single c B m hm
    rw [if_neg hnov] at hstep
    have hall' : ∀ m' ∈ rest, m'.Container = c :=
      fun m' h => hall m' (List.mem_cons_of_mem _ h)
    have hsz' : (batchAppend B m).Size + ((rest.map msgSize)).sum ≤ MAX_BATCH_SIZE := by
      simp only [batchAppend]
      simp only [List.map_cons, List.sum_cons] at hsz
      omega
    have hrec := ih (batchAppend B m) hall' hsz'
    have hrun : runBatcherFrom [(c, B)] (BatchEvent.msg m :: rest.map BatchEvent.msg)
        = ((runBatcherFrom [(c, batchAppend B m)] (rest.map BatchEvent.msg)).1,
           [] ++ (runBatcherFrom [(c, batchAppend B m)] (rest.map BatchEvent.msg)).2) := by
      simp [runBatcherFrom, hstep]
    simp only [List.map_cons]
    rw [hrun, hrec]
    simp [batchAppend, Nat.add_assoc]

theorem runBatcher_cross (c : String) :
    ∀ (msgs : List CloudwatchMessage) (B : CloudwatchBatch) (k : Nat),
    (∀ m ∈ msgs, m.Container = c) →
    k < msgs.length →
    B.Size + (((msgs.take k).map msgSize)).sum ≤ MAX_BATCH_SIZE →
    MAX_BATCH_SIZE < B.Size + (((msgs.take (k+1)).map msgSize)).sum →
    (((msgs.drop k).map msgSize)).sum ≤ MAX_BATCH_SIZE →
    runBatcherFrom [(c, B)] (msgs.map BatchEvent.msg)
      = ([(c, ⟨msgs.drop k, (((msgs.drop k).map msgSize)).sum⟩)],
         [⟨B.Msgs ++ msgs.take k, B.Size + (((msgs.take k).map msgSize)).sum⟩]) := by
  intro msgs
  induction msgs with
  | nil =>
    intro B k _ hk
    simp at hk
  | cons m rest ih =>
    intro B k hall hk hpre hcross hsuf
    have hm : m.Container = c := hall m (List.mem_cons_self _ _)
    have hall' : ∀ m' ∈ rest, m'.Container = c :=
      fun m' h => hall m' (List.mem_cons_of_mem _ h)
    match k with
    | 0 =>
      have hov : MAX_BATCH_SIZE < B.Size + msgSize m := by
        simp only [List.take, List.map_cons, List.sum_cons, List.map_nil,
          List.sum_nil, Nat.add_zero] at hcross
        omega
      have hstep := batcherStep_msg_single c B m hm
      rw [if_pos hov] at hstep
      have hsz' : (batchAppend NewCloudwatchBatch m).Size + ((rest.map msgSize)).sum
          ≤ MAX_BATCH_SIZE := by
        simp only [batchAppend, NewCloudwatchBatch]
        simp only [List.drop, List.map_cons, List.sum_cons] at hsuf
        omega
      have hfill := runBatcher_fill c rest (batchAppend NewCloudwatchBatch m) hall' hsz'
      have hrun : runBatcherFrom [(c, B)] (BatchEvent.msg m :: rest.map BatchEvent.msg)
          = ((runBatcherFrom [(c, batchAppend NewCloudwatchBatch m)]
                (rest.map BatchEvent.msg)).1,
             [B] ++ (runBatcherFrom [(c, batchAppend NewCloudwatchBatch m)]
                (rest.map BatchEvent.msg)).2) := by
        simp [runBatcherFrom, hstep]
      simp only [List.map_cons]
      rw [hrun, hfill]
      cases B
      simp [batchAppend, NewCloudwatchBatch]
    | j+1 =>
      have hnov : ¬ MAX_BATCH_SIZE < B.Size + msgSize m := by
        simp only [List.take, List.map_cons, List.sum_cons] at hpre
        omega
      have hstep := batcherStep_msg_single c B m hm
      rw [if_neg hnov] at hstep
      have hk' : j < rest.length := by
        simpa using hk
      have hpre' : (batchAppend B m).Size + (((rest.take j).map msgSize)).sum
          ≤ MAX_BATCH_SIZE := by
        simp only [batchAppend]
        simp only [List.take, List.map_cons, List.sum_cons] at hpre
        omega
      have hcross' : MAX_BATCH_SIZE
          < (batchAppend B m).Size + (((rest.take (j+1)).map msgSize)).sum := by
        simp only [batchAppend]
        simp only [List.take, List.map_cons, List.sum_cons] at hcross
        omega
      have hsuf' : (((rest.drop j).map msgSize)).sum ≤ MAX_BATCH_SIZE := by
        simpa using hsuf
      have hrec := ih (batchAppend B m) j hall' hk' hpre' hcross' hsuf'
      have hrun : runBatcherFrom [(c, B)] (BatchEvent.msg m :: rest.map BatchEvent.msg)
          = ((runBatcherFrom [(c, batchAppend B m)] (rest.map BatchEvent.msg)).1,
             [] ++ (runBatcherFrom [(c, batchAppend B m)] (rest.map BatchEvent.msg)).2) := by
        simp [runBatcherFrom, hstep]
      simp only [List.map_cons]
      rw [hrun, hrec]
      simp [batchAppend, Nat.add_assoc]

theorem batcherStep_init (m : CloudwatchMessage) :
    batcherStep [] (BatchEvent.msg m)
      = batcherStep [(m.Container, NewCloudwatchBatch)] (BatchEvent.msg m) := by
  simp [batcherStep, lookupA, setA]

/-- Claim C8 (amended): for a stream receiving, with no timer tick, a record
sequence whose cumulative wire size first exceeds `MAX_BATCH_SIZE` at the
record of index `k` and whose records from the crossing record on fit within
`MAX_BATCH_SIZE`, the accumulator emits exactly one batch — containing, in
arrival order, all records before the crossing record — while the batch
starting with the crossing record remains open in the accumulator (to be
emitted only by a later flush event). -/
theorem c8_amended_single_flush (c : String) (msgs : List CloudwatchMessage)
    (k : Nat)
    (hall : ∀ m ∈ msgs, m.Container = c)
    (hk : k < msgs.length)
    (hpre : (((msgs.take k).map msgSize)).sum ≤ MAX_BATCH_SIZE)
    (hcross : MAX_BATCH_SIZE < (((msgs.take (k+1)).map msgSize)).sum)
    (hsuf : (((msgs.drop k).map msgSize)).sum ≤ MAX_BATCH_SIZE) :
    runBatcher (msgs.map BatchEvent.msg)
      = ([(c, ⟨msgs.drop k, (((msgs.drop k).map msgSize)).sum⟩)],
         [⟨msgs.take k, (((msgs.take k).map msgSize)).sum⟩]) := by
  obtain ⟨m, rest, rfl⟩ : ∃ m rest, msgs = m :: rest := by
    cases msgs with
    | nil => simp at hk
    | cons a b => exact ⟨a, b, rfl⟩
  · have hm : m.Container = c := hall m (List.mem_cons_self _ _)
    have hinit : runBatcher ((m :: rest).map BatchEvent.msg)
        = runBatcherFrom [(c, NewCloudwatchBatch)] ((m :: rest).map BatchEvent.msg) := by
      rw [runBatcher]
      simp only [List.map_cons]
      rw [runBatcherFrom, runBatcherFrom, batcherStep_init, hm]
    rw [hinit]
    have hcr := runBatcher_cross c (m :: rest) NewCloudwatchBatch k hall hk
      (by simpa [NewCloudwatchBatch] using hpre)
      (by simpa [NewCloudwatchBatch] using hcross) hsuf
    rw [hcr]
    simp [NewCloudwatchBatch]

/-- Witness for the amended C8 at a concrete input: four records of wire size
826 cross at index 3; one batch of three records is emitted and the fourth
record stays in the open batch. -/
theorem c8_amended_single_flush_witness :
    runBatcher ([c8Msg, c8Msg, c8Msg, c8Msg].map BatchEvent.msg)
      = ([("c", ⟨[c8Msg, c8Msg, c8Msg, c8Msg].drop 3,
            ((([c8Msg, c8Msg, c8Msg, c8Msg].drop 3).map msgSize)).sum⟩)],
         [⟨[c8Msg, c8Msg, c8Msg, c8Msg].take 3,
            ((([c8Msg, c8Msg, c8Msg, c8Msg].take 3).map msgSize)).sum⟩]) :=
  c8_amended_single_flush "c" [c8Msg, c8Msg, c8Msg, c8Msg] 3
    (by decide) (by decide) (by decide) (by decide) (by decide)

theorem submitPhase_cases (st : UploaderState) (k : String) (p : PutParams)
    (ws : List CacheWrite) :
    ((submitPhase st k p ws).1.tokens = st.tokens
      ∧ (submitPhase st k p ws).2.2 = ws
      ∧ ((∃ e, (submitPhase st k p ws).2.1 = DispatchResult.putFailed p e)
         ∨ (submitPhase st k p ws).2.1 = DispatchResult.succeeded p none))
  ∨ (∃ n, (submitPhase st k p ws).1.tokens = setA st.tokens k n
      ∧ (submitPhase st k p ws).2.2 = ws ++ [⟨k, n, WriteSite.afterSuccess⟩]
      ∧ (submitPhase st k p ws).2.1 = DispatchResult.succeeded p (some n)) := by
  match h : st.svc.putResps with
  | [] =>
    left
    refine ⟨?_, ?_, Or.inl ⟨noResp, ?_⟩⟩ <;> simp [submitPhase, h]
  | Except.error e :: rest =>
    left
    refine ⟨?_, ?_, Or.inl ⟨e, ?_⟩⟩ <;> simp [submitPhase, h]
  | Except.ok none :: rest =>
    left
    refine ⟨?_, ?_, Or.inr ?_⟩ <;> simp [submitPhase, h]
  | Except.ok (some n) :: rest =>
    right
    refine ⟨n, ?_, ?_, ?_⟩ <;> simp [submitPhase, h]

theorem dispatchBatch_spec (st : UploaderState) (b : CloudwatchBatch) :
    (b.Msgs = [] ∧ dispatchBatch st b = (st, DispatchResult.panicked, []))
  ∨ (∃ msg rest cached, b.Msgs = msg :: rest
      ∧ lookupA st.tokens msg.Container = some cached
      ∧ dispatchBatch st b
          = submitPhase st msg.Container (mkPutParams b msg (some cached)) [])
  ∨ (∃ msg rest e svc', b.Msgs = msg :: rest
      ∧ lookupA st.tokens msg.Container = none
      ∧ getSequenceToken msg st.svc = (Except.error e, svc')
      ∧ dispatchBatch st b
          = ({ st with svc := svc' }, DispatchResult.fetchFailed e, []))
  ∨ (∃ msg rest svc', b.Msgs = msg :: rest
      ∧ lookupA st.tokens msg.Container = none
      ∧ getSequenceToken msg st.svc = (Except.ok none, svc')
      ∧ dispatchBatch st b
          = submitPhase { st with svc := svc' } msg.Container
              (mkPutParams b msg none) [])
  ∨ (∃ msg rest t svc', b.Msgs = msg :: rest
      ∧ lookupA st.tokens msg.Container = none
      ∧ getSequenceToken msg st.svc = (Except.ok (some t), svc')
      ∧ dispatchBatch st b
          = submitPhase ⟨setA st.tokens msg.Container t, svc'⟩ msg.Container
              (mkPutParams b msg (some t))
              [⟨msg.Container, t, WriteSite.afterFetch⟩]) := by
  match hm : b.Msgs with
  | [] =>
    exact Or.inl ⟨rfl, by simp [dispatchBatch, hm]⟩
  | msg :: rest =>
    match hlk : lookupA st.tokens msg.Container with
    | some cached =>
      exact Or.inr (Or.inl ⟨msg, rest, cached, rfl, hlk,
        by simp [dispatchBatch, hm, hlk]⟩)
    | none =>
      match hg : getSequenceToken msg st.svc with
      | (Except.error e, svc') =>
        exact Or.inr (Or.inr (Or.inl ⟨msg, rest, e, svc', rfl, hlk, hg,
          by simp [dispatchBatch, hm, hlk, hg]⟩))
      | (Except.ok none, svc') =>
        exact Or.inr (Or.inr (Or.inr (Or.inl ⟨msg, rest, svc', rfl, hlk, hg,
          by simp [dispatchBatch, hm, hlk, hg]⟩)))
      | (Except.ok (some t), svc') =>
        exact Or.inr (Or.inr (Or.inr (Or.inr ⟨msg, rest, t, svc', rfl, hlk, hg,
          by simp [dispatchBatch, hm, hlk, hg]⟩)))

/-- First record of the C4 counterexample batch. -/
def c4Msg : CloudwatchMessage :=
  { Message := "x", Group := "G", Stream := "S", Time := 0, Container := "c" }

/-- The C4 counterexample batch. -/
def c4Batch : CloudwatchBatch := ⟨[c4Msg], 34⟩

/-- Uploader state of the C4 counterexample: empty token cache; the remote
service knows group `G`, answers the stream lookup with one stream carrying
token `T1`, and then fails the submission. -/
def c4St : UploaderState :=
  { tokens := []
    svc := { remoteGroups := ["G"]
             createGroupResps := []
             streamResps := [Except.ok [some "T1"]]
             createStreamResps := []
             putResps := [Except.error "boom"] } }

/-- Claim C4 (counterexample): dispatching a batch on a cache miss writes the
token cache at the pre-submission fetch: the fetched token `T1` is cached even
though the submission then fails, so no successful submission ever occurred —
refuting "the Dispatcher writes to the sequence-token cache only when caching
the token returned by the remote service after a successful submission". -/
theorem c4_fetch_write_counterexample :
    (dispatchBatch c4St c4Batch).1.tokens = [("c", "T1")]
    ∧ c4St.tokens = []
    ∧ (dispatchBatch c4St c4Batch).2.1
        = DispatchResult.putFailed (mkPutParams c4Batch c4Msg (some "T1")) "boom"
    ∧ (dispatchBatch c4St c4Batch).2.2 = [⟨"c", "T1", WriteSite.afterFetch⟩] := by
  refine ⟨by decide, rfl, by decide, by decide⟩

/-- Claim C4 (amended): the Dispatcher writes the token cache in exactly two
situations — on a cache miss, when the pre-submission fetch returns a token
(the fetched token is cached before the submission), and after a successful
submission that returns a next token.  The final cache equals the initial one
with the logged writes applied in order, every `afterFetch` write happens only
on a cache miss for the batch's key with the fetched token then carried by the
submission, and every `afterSuccess` write records exactly the next token of a
successful submission. -/
theorem c4_amended_token_write_sites (st : UploaderState) (b : CloudwatchBatch) :
    (dispatchBatch st b).1.tokens
      = ((dispatchBatch st b).2.2).foldl (fun tks w => setA tks w.key w.val) st.tokens
  ∧ ∀ w ∈ (dispatchBatch st b).2.2,
      (w.site = WriteSite.afterFetch →
        batchKey b = some w.key ∧ lookupA st.tokens w.key = none
          ∧ sentToken (dispatchBatch st b).2.1 = some (some w.val))
    ∧ (w.site = WriteSite.afterSuccess →
        ∃ p, (dispatchBatch st b).2.1 = DispatchResult.succeeded p (some w.val)) := by
  rcases dispatchBatch_spec st b with
    ⟨hm, hd⟩ | ⟨msg, rest, cached, hm, hlk, hd⟩ | ⟨msg, rest, e, svc', hm, hlk, hg, hd⟩
    | ⟨msg, rest, svc', hm, hlk, hg, hd⟩ | ⟨msg, rest, t, svc', hm, hlk, hg, hd⟩
  · rw [hd]
    simp
  · -- cache hit: no fetch write; possibly one success write
    rw [hd]
    rcases submitPhase_cases st msg.Container (mkPutParams b msg (some cached)) []
      with ⟨h1, h2, _⟩ | ⟨n, h1, h2, h3⟩
    · rw [h1, h2]
      simp
    · rw [h1, h2]
      refine ⟨by simp, ?_⟩
      intro w hw
      simp only [List.nil_append, List.mem_singleton] at hw
      subst hw
      constructor
      · intro hsite
        simp at hsite
      · intro _
        exact ⟨mkPutParams b msg (some cached), h3⟩
  · -- fetch failed: no writes
    rw [hd]
    simp
  · -- cache miss, fetch returned no token: no fetch write
    rw [hd]
    rcases submitPhase_cases { st with svc := svc' } msg.Container
        (mkPutParams b msg none) [] with ⟨h1, h2, _⟩ | ⟨n, h1, h2, h3⟩
    · rw [h1, h2]
      simp
    · rw [h1, h2]
      refine ⟨by simp, ?_⟩
      intro w hw
      simp only [List.nil_append, List.mem_singleton] at hw
      subst hw
      constructor
      · intro hsite
        simp at hsite
      · intro _
        exact ⟨mkPutParams b msg none, h3⟩
  · -- cache miss, fetch returned token t: fetch write, possibly success write
    rw [hd]
    have hkey : batchKey b = some msg.Container := by
      simp [batchKey, hm]
    rcases submitPhase_cases ⟨setA st.tokens msg.Container t, svc'⟩ msg.Container
        (mkPutParams b msg (some t)) [⟨msg.Container, t, WriteSite.afterFetch⟩]
      with ⟨h1, h2, h3⟩ | ⟨n, h1, h2, h3⟩
    · rw [h1, h2]
      refine ⟨by simp, ?_⟩
      intro w hw
      simp only [List.mem_singleton] at hw
      subst hw
      constructor
      · intro _
        refine ⟨hkey, hlk, ?_⟩
        rcases h3 with ⟨e', he'⟩ | he'
        · rw [he']
          simp [sentToken, mkPutParams]
        · rw [he']
          simp [sentToken, mkPutParams]
      · intro hsite
        simp at hsite
    · rw [h1, h2]
      constructor
      · simp
      · intro w hw
        simp only [List.cons_append, List.nil_append, List.mem_cons,
          List.not_mem_nil, or_false] at hw
        rcases hw with rfl | rfl
        · constructor
          · intro _
            refine ⟨hkey, hlk, ?_⟩
            rw [h3]
            simp [sentToken, mkPutParams]
          · intro hsite
            simp at hsite
        · constructor
          · intro hsite
            simp at hsite
          · intro _
            exact ⟨mkPutParams b msg (some t), h3⟩

/-- Witness for the amended C4 at a concrete input: the write logged by the
C4 scenario is an `afterFetch` write for the batch's key, on a cache miss,
with the fetched token carried by the (failing) submission. -/
theorem c4_amended_token_write_sites_witness :
    batchKey c4Batch = some "c"
    ∧ lookupA c4St.tokens "c" = none
    ∧ sentToken (dispatchBatch c4St c4Batch).2.1 = some (some "T1") :=
  ((c4_amended_token_write_sites c4St c4Batch).2
    ⟨"c", "T1", WriteSite.afterFetch⟩ (by decide)).1 rfl

theorem batchKey_eq (b : CloudwatchBatch) (k : String) (h : batchKey b = some k) :
    ∃ msg rest, b.Msgs = msg :: rest ∧ msg.Container = k := by
  match hm : b.Msgs with
  | [] => simp [batchKey, hm] at h
  | msg :: rest =>
    refine ⟨msg, rest, rfl, ?_⟩
    simpa [batchKey, hm] using h

/-- Claim C6: if the remote submission for a batch fails, the cache entry for
the batch's stream key still holds exactly the token `T` that was carried by
the failed submission (the token cached at submission time), and dispatching
any next batch for the same stream key submits carrying that same token. -/
theorem c6_failed_put_preserves_token (st : UploaderState)
    (b b' : CloudwatchBatch) (k T e : String) (p : PutParams)
    (ws : List CacheWrite) (st' : UploaderState)
    (h1 : dispatchBatch st b = (st', DispatchResult.putFailed p e, ws))
    (h2 : batchKey b = some k)
    (h3 : p.token = some T) :
    lookupA st'.tokens k = some T
    ∧ (batchKey b' = some k →
        sentToken (dispatchBatch st' b').2.1 = some (some T)) := by
  have hmain : lookupA st'.tokens k = some T := by
    rcases dispatchBatch_spec st b with
      ⟨hm, hd⟩ | ⟨msg, rest, cached, hm, hlk, hd⟩
      | ⟨msg, rest, e0, svc', hm, hlk, hg, hd⟩
      | ⟨msg, rest, svc', hm, hlk, hg, hd⟩
      | ⟨msg, rest, t, svc', hm, hlk, hg, hd⟩
    · rw [h1] at hd
      simp at hd
    · -- cache hit: tokens unchanged; the carried token is the cached one
      have hk : msg.Container = k := by
        obtain ⟨msg0, rest0, hm0, hk0⟩ := batchKey_eq b k h2
        rw [hm] at hm0
        injection hm0 with h5 _
        rw [← h5] at hk0
        exact hk0
      rw [h1] at hd
      rcases submitPhase_cases st msg.Container (mkPutParams b msg (some cached)) []
        with ⟨ha, _, hc⟩ | ⟨n, _, _, hc⟩
      · rw [← hd] at ha hc
        rcases hc with ⟨e', he'⟩ | he'
        · simp only at ha he'
          injection he' with hp _
          have hpt : p.token = some cached := by
            rw [hp, mkPutParams]
          have hcT : cached = T := by
            injection hpt.symm.trans h3
          rw [hk] at hlk
          rw [ha, hlk, hcT]
        · simp only at he'
          cases he'
      · rw [← hd] at hc
        simp only at hc
        cases hc
    · rw [h1] at hd
      simp at hd
    · -- cache miss, no token fetched: the carried token is none, contradiction
      rw [h1] at hd
      rcases submitPhase_cases { st with svc := svc' } msg.Container
          (mkPutParams b msg none) [] with ⟨_, _, hc⟩ | ⟨n, _, _, hc⟩
      · rw [← hd] at hc
        rcases hc with ⟨e', he'⟩ | he'
        · simp only at he'
          injection he' with hp _
          rw [hp] at h3
          simp [mkPutParams] at h3
        · simp only at he'
          cases he'
      · rw [← hd] at hc
        simp only at hc
        cases hc
    · -- cache miss, token t fetched and cached before the failing submission
      have hk : msg.Container = k := by
        obtain ⟨msg0, rest0, hm0, hk0⟩ := batchKey_eq b k h2
        rw [hm] at hm0
        injection hm0 with h5 _
        rw [← h5] at hk0
        exact hk0
      rw [h1] at hd
      rcases submitPhase_cases ⟨setA st.tokens msg.Container t, svc'⟩ msg.Container
          (mkPutParams b msg (some t)) [⟨msg.Container, t, WriteSite.afterFetch⟩]
        with ⟨ha, _, hc⟩ | ⟨n, _, _, hc⟩
      · rw [← hd] at ha hc
        rcases hc with ⟨e', he'⟩ | he'
        · simp only at ha he'
          injection he' with hp _
          have hpt : p.token = some t := by
            rw [hp, mkPutParams]
          have htT : t = T := by
            injection hpt.symm.trans h3
          rw [ha, ← hk, lookupA_setA_self, htT]
        · simp only at he'
          cases he'
      · rw [← hd] at hc
        simp only at hc
        cases hc
  refine ⟨hmain, ?_⟩
  intro hb'
  obtain ⟨msg', rest', hm', hk'⟩ := batchKey_eq b' k hb'
  have hlk' : lookupA st'.tokens msg'.Container = some T := by
    rw [hk']
    exact hmain
  have hd' : dispatchBatch st' b'
      = submitPhase st' msg'.Container (mkPutParams b' msg' (some T)) [] := by
    simp [dispatchBatch, hm', hlk']
  rw [hd']
  rcases submitPhase_cases st' msg'.Container (mkPutParams b' msg' (some T)) []
    with ⟨_, _, hc⟩ | ⟨n, _, _, hc⟩
  · rcases hc with ⟨e', he'⟩ | he'
    · rw [he']
      simp [sentToken, mkPutParams]
    · rw [he']
      simp [sentToken, mkPutParams]
  · rw [hc]
    simp [sentToken, mkPutParams]

/-- First record of the C6 witness batch. -/
def c6Msg : CloudwatchMessage :=
  { Message := "x", Group := "G", Stream := "S", Time := 0, Container := "c" }

/-- The C6 witness batch. -/
def c6Batch : CloudwatchBatch := ⟨[c6Msg], 34⟩

/-- Uploader state of the C6 witness: token `T0` already cached for key `c`;
the remote service fails the first submission and would accept a second. -/
def c6St : UploaderState :=
  { tokens := [("c", "T0")]
    svc := { remoteGroups := []
             createGroupResps := []
             streamResps := []
             createStreamResps := []
             putResps := [Except.error "e1", Except.ok (some "T9")] } }

/-- Witness for C6 at a concrete input: after the failed submission the cache
still maps `c` to `T0`, and the next batch for `c` is submitted carrying
`T0`. -/
theorem c6_failed_put_preserves_token_witness :
    lookupA (dispatchBatch c6St c6Batch).1.tokens "c" = some "T0"
    ∧ sentToken (dispatchBatch (dispatchBatch c6St c6Batch).1 c6Batch).2.1
        = some (some "T0") := by
  have h := c6_failed_put_preserves_token c6St c6Batch c6Batch "c" "T0" "e1"
    (mkPutParams c6Batch c6Msg (some "T0")) [] (dispatchBatch c6St c6Batch).1
    (by decide) (by decide) (by decide)
  exact ⟨h.1, h.2 (by decide)⟩

theorem listStarts_refl : ∀ l : List Char, listStarts l l = true
  | [] => rfl
  | a :: as => by simp [listStarts, listStarts_refl as]

theorem two_mem_le_length {α : Type} (l : List α) (a b : α) (ha : a ∈ l)
    (hb : b ∈ l) (hne : a ≠ b) : 2 ≤ l.length := by
  induction l with
  | nil => simp at ha
  | cons x t ih =>
    rcases List.mem_cons.mp ha with rfl | ha'
    · rcases List.mem_cons.mp hb with rfl | hb'
      · exact absurd rfl hne
      · have h1 : 0 < t.length := List.length_pos.mpr (List.ne_nil_of_mem hb')
        simp only [List.length_cons]
        omega
    · have h1 : 0 < t.length := List.length_pos.mpr (List.ne_nil_of_mem ha')
      simp only [List.length_cons]
      omega

theorem gstGo_groupError (msg : CloudwatchMessage) (rg rg1 : List String)
    (cg cg1 : List (Except String Unit)) (e : String)
    (sr : List (Except String (List (Option String))))
    (cs : List (Except String Unit))
    (h : ensureGroupL rg cg msg.Group = (Except.error e, rg1, cg1)) :
    gstGo msg rg cg sr cs = ⟨Except.error e, rg1, cg1, sr, cs⟩ := by
  cases sr with
  | nil => simp [gstGo, h]
  | cons r srest =>
    cases r with
    | error e0 => simp [gstGo, h]
    | ok streams => simp [gstGo, h]

/-- Claim C10: when the batch's group name is a strict prefix of another
existing remote group's name (so the prefix-based group listing returns more
than one match), the group-existence check errors even though a group with
exactly that name exists, the token fetch fails, and the batch is abandoned
with the Uploader's state — in particular the token cache — untouched. -/
theorem c10_ambiguous_group_fails (st : UploaderState) (b : CloudwatchBatch)
    (msg : CloudwatchMessage) (rest : List CloudwatchMessage) (g' : String)
    (h1 : b.Msgs = msg :: rest)
    (h2 : lookupA st.tokens msg.Container = none)
    (h3 : msg.Group ∈ st.svc.remoteGroups)
    (h4 : g' ∈ st.svc.remoteGroups)
    (h5 : strStartsWith msg.Group g' = true)
    (h6 : g' ≠ msg.Group) :
    ∃ e, dispatchBatch st b = (st, DispatchResult.fetchFailed e, []) := by
  have hmem1 : msg.Group ∈ describeGroups st.svc.remoteGroups msg.Group := by
    rw [describeGroups]
    exact List.mem_filter.mpr ⟨h3, by simp [strStartsWith, listStarts_refl]⟩
  have hmem2 : g' ∈ describeGroups st.svc.remoteGroups msg.Group := by
    rw [describeGroups]
    exact List.mem_filter.mpr ⟨h4, by simp [h5]⟩
  have hlen : 1 < (describeGroups st.svc.remoteGroups msg.Group).length := by
    have := two_mem_le_length _ _ _ hmem2 hmem1 h6
    omega
  have hge : groupExistsL st.svc.remoteGroups msg.Group
      = Except.error ((toString (describeGroups st.svc.remoteGroups msg.Group).length)
          ++ " groups match group " ++ msg.Group ++ "!") := by
    rw [groupExistsL]
    simp only [if_pos hlen]
  have hens : ensureGroupL st.svc.remoteGroups st.svc.createGroupResps msg.Group
      = (Except.error ((toString (describeGroups st.svc.remoteGroups msg.Group).length)
            ++ " groups match group " ++ msg.Group ++ "!"),
         st.svc.remoteGroups, st.svc.createGroupResps) := by
    rw [ensureGroupL.eq_def, hge]
  have hgst : getSequenceToken msg st.svc
      = (Except.error ((toString (describeGroups st.svc.remoteGroups msg.Group).length)
            ++ " groups match group " ++ msg.Group ++ "!"), st.svc) := by
    rw [getSequenceToken, gstGo_groupError msg _ _ _ _ _
      st.svc.streamResps st.svc.createStreamResps hens]
  refine ⟨(toString (describeGroups st.svc.remoteGroups msg.Group).length)
    ++ " groups match group " ++ msg.Group ++ "!", ?_⟩
  simp [dispatchBatch, h1, h2, hgst]

/-- First record of the C10 witness batch; its group `app` is a strict prefix
of the other existing group `app2`. -/
def c10Msg : CloudwatchMessage :=
  { Message := "x", Group := "app", Stream := "S", Time := 0, Container := "c" }

/-- The C10 witness batch. -/
def c10Batch : CloudwatchBatch := ⟨[c10Msg], 34⟩

/-- Uploader state of the C10 witness: groups `app` and `app2` both exist. -/
def c10St : UploaderState :=
  { tokens := []
    svc := { remoteGroups := ["app", "app2"]
             createGroupResps := []
             streamResps := []
             createStreamResps := []
             putResps := [] } }

/-- Witness for C10 at a concrete input: the batch for group `app` fails its
token fetch because `app2` also matches the prefix, leaving the state
untouched. -/
theorem c10_ambiguous_group_fails_witness :
    ∃ e, dispatchBatch c10St c10Batch = (c10St, DispatchResult.fetchFailed e, []) :=
  c10_ambiguous_group_fails c10St c10Batch c10Msg [] "app2" rfl (by decide)
    (by decide) (by decide) (by decide) (by decide)

/-- The record of the C5 scenarios. -/
def c5Msg : CloudwatchMessage :=
  { Message := "x", Group := "G", Stream := "S", Time := 0, Container := "c" }

/-- Remote service of the C5 counterexample: group `G` exists; the stream
lookup answers zero matches twice, then one match with token `T`; both
stream creations succeed. -/
def c5Svc : SvcState :=
  { remoteGroups := ["G"]
    createGroupResps := []
    streamResps := [Except.ok [], Except.ok [], Except.ok [some "T"]]
    createStreamResps := [Except.ok (), Except.ok ()]
    putResps := [] }

/-- Claim C5 (counterexample): after the first zero-match the stream is
created and the lookup retried; the retry again finds zero matches — and the
code creates the stream a SECOND time and retries again, finally returning
the token.  All three describe responses and both creation responses are
consumed and the result is a success, not an error: the lookup performed two
retries, refuting "at most one retry after stream creation" and "a second
zero-match after that retry is returned as an error". -/
theorem c5_single_retry_counterexample :
    getSequenceToken c5Msg c5Svc
      = (Except.ok (some "T"),
         { remoteGroups := ["G"], createGroupResps := [], streamResps := [],
           createStreamResps := [], putResps := [] })
    ∧ c5Svc.streamResps.length = 3
    ∧ c5Svc.createStreamResps.length = 2 := by
  refine ⟨by decide, rfl, rfl⟩

theorem ensureGroup_singleton (cg : List (Except String Unit)) (g : String) :
    ensureGroupL [g] cg g = (Except.ok (), [g], cg) := by
  have hd : describeGroups [g] g = [g] := by
    simp [describeGroups, strStartsWith, listStarts_refl]
  rw [ensureGroupL.eq_def]
  rw [groupExistsL, hd]
  simp

theorem gstGo_retry_count (msg : CloudwatchMessage) :
    ∀ (k : Nat) (cg : List (Except String Unit)) (tok : Option String)
      (srest : List (Except String (List (Option String))))
      (crest : List (Except String Unit)),
    gstGo msg [msg.Group] cg
        (List.replicate k (Except.ok []) ++ (Except.ok [tok] :: srest))
        (List.replicate k (Except.ok ()) ++ crest)
      = ⟨Except.ok tok, [msg.Group], cg, srest, crest⟩ := by
  intro k
  induction k with
  | zero =>
    intro cg tok srest crest
    simp [List.replicate, gstGo, ensureGroup_singleton]
  | succ j ih =>
    intro cg tok srest crest
    simp [List.replicate, gstGo, ensureGroup_singleton, popCreate, ih]

theorem gstGo_ambig_count (msg : CloudwatchMessage) :
    ∀ (k : Nat) (cg : List (Except String Unit)) (t1 t2 : Option String)
      (ts : List (Option String))
      (srest : List (Except String (List (Option String))))
      (crest : List (Except String Unit)),
    gstGo msg [msg.Group] cg
        (List.replicate k (Except.ok []) ++ (Except.ok (t1 :: t2 :: ts) :: srest))
        (List.replicate k (Except.ok ()) ++ crest)
      = ⟨Except.error ((toString (t1 :: t2 :: ts).length) ++ " streams match group "
            ++ msg.Group ++ ", stream " ++ msg.Stream ++ "!"),
          [msg.Group], cg, srest, crest⟩ := by
  intro k
  induction k with
  | zero =>
    intro cg t1 t2 ts srest crest
    have hlt : 1 < (t1 :: t2 :: ts).length := by
      simp [List.length_cons]
    simp [List.replicate, gstGo, ensureGroup_singleton, if_pos hlt]
  | succ j ih =>
    intro cg t1 t2 ts srest crest
    simp [List.replicate, gstGo, ensureGroup_singleton, popCreate, ih]

/-- Claim C5 (amended): the retry after stream creation is unbounded, not
bounded to one.  For every `k`, a run of `k` zero-match stream listings, each
followed by a successful stream creation, leads to `k` full retries of the
lookup (consuming `k + 1` listing responses and `k` creation responses) and
returns the token of the first single-match listing; an ambiguous listing
(more than one match) at any retry depth is returned as an error for this
batch, with no further retry. -/
theorem c5_amended_unbounded_retry (msg : CloudwatchMessage) (k : Nat)
    (tok : Option String) (cg : List (Except String Unit))
    (srest : List (Except String (List (Option String))))
    (crest : List (Except String Unit))
    (pr : List (Except String (Option String))) :
    getSequenceToken msg
      { remoteGroups := [msg.Group]
        createGroupResps := cg
        streamResps := List.replicate k (Except.ok []) ++ (Except.ok [tok] :: srest)
        createStreamResps := List.replicate k (Except.ok ()) ++ crest
        putResps := pr }
      = (Except.ok tok,
         { remoteGroups := [msg.Group], createGroupResps := cg,
           streamResps := srest, createStreamResps := crest, putResps := pr })
  ∧ ∀ (t1 t2 : Option String) (ts : List (Option String)),
      getSequenceToken msg
        { remoteGroups := [msg.Group]
          createGroupResps := cg
          streamResps := List.replicate k (Except.ok [])
            ++ (Except.ok (t1 :: t2 :: ts) :: srest)
          createStreamResps := List.replicate k (Except.ok ()) ++ crest
          putResps := pr }
        = (Except.error ((toString (t1 :: t2 :: ts).length)
              ++ " streams match group " ++ msg.Group ++ ", stream "
              ++ msg.Stream ++ "!"),
           { remoteGroups := [msg.Group], createGroupResps := cg,
             streamResps := srest, createStreamResps := crest, putResps := pr }) := by
  constructor
  · rw [getSequenceToken]
    rw [gstGo_retry_count msg k cg tok srest crest]
  · intro t1 t2 ts
    rw [getSequenceToken]
    rw [gstGo_ambig_count msg k cg t1 t2 ts srest crest]
